import Mathlib

/-!
Verification of the go-landlock policy core.

This file gives a shallow embedding of the go-landlock library's pure
policy-negotiation core: the filesystem capability bit-set algebra
(`accessfs.go`), the ABI version registry and kernel probe
(`abi_versions.go`), the `Config` constructor and diagnostic rendering
(`landlock/config.go`), the `PathOpt` rule values with their
compatibility check and downgrade (`landlock/path_opt.go`), and the
pure prefix of the enforcement pipeline (`landlock/restrict.go`).

Machine integers: access sets are `uint64` bitmasks in Go.  All
operations used here are bitwise (`&`, `|`, comparisons), which agree
with `Nat` bitwise operations on values below `2^64`; no arithmetic
overflow can occur, so sets are embedded as `Nat`.

Kernel calls (`landlock_create_ruleset` and later) are not embedded;
the pipeline is modelled up to the first kernel ruleset call by an
explicit result datatype (`RestrictResult`).
-/

namespace Landlock

/-- `AccessFSSet` is a set of Landlockable file system access
operations, a `uint64` bitmask in the source. -/
abbrev AccessFSSet := Nat

/-- `a.isSubset b` from accessfs.go: `a&b == a`. -/
def isSubset (a b : AccessFSSet) : Bool := a &&& b == a

/-- `a.intersect b` from accessfs.go: `a & b`. -/
def intersect (a b : AccessFSSet) : AccessFSSet := a &&& b

/-- `a.union b` from accessfs.go: `a | b`. -/
def union (a b : AccessFSSet) : AccessFSSet := a ||| b

/-- `a.isEmpty` from accessfs.go: `a == 0`. -/
def isEmpty (a : AccessFSSet) : Bool := a == 0

/-- Landlock access right bits from the `landlock/syscall` package
(`AccessFSExecute = 1<<0` through `AccessFSMakeSym = 1<<12`). -/
def AccessFSExecute : AccessFSSet := 1 <<< 0

def AccessFSWriteFile : AccessFSSet := 1 <<< 1

def AccessFSReadFile : AccessFSSet := 1 <<< 2

def AccessFSReadDir : AccessFSSet := 1 <<< 3

def AccessFSMakeSym : AccessFSSet := 1 <<< 12

/-- Modelled from the spec: the directory-reparenting right
("refer").  Its constant is referenced as `ll.AccessFSRefer` but its
declaration is not among the provided sources; per the spec it is the
single right added by ABI version 2, the next bit after the thirteen
version-1 rights (`1<<0` .. `1<<12`), hence `1<<13`. -/
def AccessFSRefer : AccessFSSet := 1 <<< 13

/-- Modelled from the spec: the file-truncation right, added by ABI
version 3 (the next bit after "refer"). -/
def AccessFSTruncate : AccessFSSet := 1 <<< 14

/-- `hasRefer` from restrict.go: `a & ll.AccessFSRefer != 0`. -/
def hasRefer (a : AccessFSSet) : Bool := a &&& AccessFSRefer != 0

/-- `abiInfo` from abi_versions.go: one registry row.  `version` is an
`Int` because `Config.String` uses `-1` as an "invalid" sentinel. -/
structure abiInfo where
  version : Int
  supportedAccessFS : AccessFSSet
deriving DecidableEq, Repr

/-- Modelled from the spec: the `abiInfos` registry of the `landlock`
package is not among the provided sources (only its tests and callers
are).  Per the spec the registry is indexed by version (entry `i` has
`version == i`), version 0 means "no support", version 1 supports the
thirteen basic rights (`(1<<13)-1`, as asserted by
`abi_versions_test.go`), version 2 adds the "refer" right and
version 3 adds the truncation right (per the `V2`/`V3` comments in
`landlock/config.go`). -/
def abiInfos : List abiInfo :=
  [⟨0, 0⟩,
   ⟨1, (1 <<< 13) - 1⟩,
   ⟨2, (1 <<< 14) - 1⟩,
   ⟨3, (1 <<< 15) - 1⟩]

/-- Modelled from the spec: the highest currently known ABI version
(the last registry entry), used by `Config` validation. -/
def highestKnownABIVersion : abiInfo := ⟨3, (1 <<< 15) - 1⟩

/-- Modelled from the spec: `AccessFSSet.valid` of the `landlock`
package is not among the provided sources; per the spec it holds iff
no bit outside the highest known ABI version's supported bits is set
(`config_test.go` checks validity against
`highestKnownABIVersion.supportedAccessFS`). -/
def valid (a : AccessFSSet) : Bool := isSubset a highestKnownABIVersion.supportedAccessFS

/-- `Config` from landlock/config.go (the snapshot the claims cite has
exactly a handled filesystem set and the best-effort flag). -/
structure Config where
  handledAccessFS : AccessFSSet
  bestEffort : Bool
deriving DecidableEq, Repr

/-- Modelled from the spec: the fallback sentinel `v0` ("version 0 /
no restriction") returned by `downgrade`; a config handling nothing. -/
def v0 : Config := ⟨0, false⟩

/-- Modelled from the spec: `Config.restrictTo` is not among the
provided sources; per the spec's downgrade step 1 it intersects every
handled-set field of the config with the corresponding supported-set
field of the ABI info. -/
def Config.restrictTo (c : Config) (abi : abiInfo) : Config :=
  { c with handledAccessFS := intersect c.handledAccessFS abi.supportedAccessFS }

/-- Modelled from the spec: `Config.compatibleWithABI` is not among
the provided sources; per the spec it holds iff every handled-set
field of the config is a subset of the corresponding supported-set
field of the ABI info. -/
def Config.compatibleWithABI (c : Config) (abi : abiInfo) : Bool :=
  isSubset c.handledAccessFS abi.supportedAccessFS

-- ### Old golandlock ABI probe (the snapshot the probe claims cite)

/-- `abiInfos` of the old `golandlock` package snapshot: exactly the
two entries for versions 0 and 1. -/
def glAbiInfos : List abiInfo := [⟨0, 0⟩, ⟨1, (1 <<< 13) - 1⟩]

/-- `getSupportedABIVersion` from the old `golandlock` snapshot.  The
kernel version query `ll.LandlockGetABIVersion()` is an input here:
`.error` is a failed query, `.ok v` a kernel reply of `v`.  The Go
code then runs `if err != nil { v = 0 }; return abiInfos[v]`; the
unchecked slice index is embedded as `List.get?`, where `none` is an
out-of-range access (a runtime panic in Go). -/
def getSupportedABIVersion (probed : Except Unit Nat) : Option abiInfo :=
  let v : Nat :=
    match probed with
    | .error _ => 0
    | .ok v => v
  glAbiInfos.get? v

-- ### Path rules (landlock/path_opt.go)

/-- `PathOpt` from landlock/path_opt.go: an option value for
`RestrictPaths()`. -/
structure PathOpt where
  accessFS : AccessFSSet
  enforceSubset : Bool
  paths : List String
deriving DecidableEq, Repr

/-- `PathOpt.intersectRights` from landlock/path_opt.go. -/
def PathOpt.intersectRights (p : PathOpt) (a : AccessFSSet) : PathOpt :=
  { accessFS := intersect p.accessFS a
    enforceSubset := p.enforceSubset
    paths := p.paths }

/-- `PathOpt.compatibleWithConfig` from landlock/path_opt.go: when
`enforceSubset` is unset, only the "refer" bit is kept for the subset
check (`a = a.intersect(ll.AccessFSRefer)`). -/
def PathOpt.compatibleWithConfig (p : PathOpt) (c : Config) : Bool :=
  let a := if !p.enforceSubset then intersect p.accessFS AccessFSRefer else p.accessFS
  isSubset a c.handledAccessFS

/-- `PathOpt.downgrade` from landlock/path_opt.go.  The Go method
returns `(out, ok)`; `ok == false` (downgrade impossible, fall back to
doing nothing) is embedded as `none`. -/
def PathOpt.downgrade (p : PathOpt) (c : Config) : Option PathOpt :=
  if hasRefer p.accessFS && !hasRefer c.handledAccessFS then none
  else some (p.intersectRights c.handledAccessFS)

-- ### Downgrade engine (landlock/restrict.go)

/-- The option loop inside `downgrade` in landlock/restrict.go: each
option is downgraded against the narrowed config; the first option
whose downgrade reports not-ok aborts the whole loop (the Go code
returns `(v0, nil)` there, embedded as `none`). -/
def downgradeOpts (c : Config) : List PathOpt → Option (List PathOpt)
  | [] => some []
  | o :: rest =>
    match o.downgrade c with
    | none => none
    | some o2 =>
      match downgradeOpts c rest with
      | none => none
      | some l => some (o2 :: l)

/-- `downgrade` from landlock/restrict.go: narrow the config to the
kernel's ABI, then downgrade every option against it; fall back to
`(v0, nil)` ("ABI V0, do nothing") if any option cannot be
downgraded. -/
def downgrade (c : Config) (opts : List PathOpt) (abi : abiInfo) : Config × List PathOpt :=
  match downgradeOpts (c.restrictTo abi) opts with
  | none => (v0, [])
  | some l => (c.restrictTo abi, l)

-- ### Enforcement pipeline prefix (landlock/restrict.go)

/-- The outcome of the pure prefix of `restrictPaths` in
landlock/restrict.go, up to (but not including) the first kernel
ruleset call:

* `tooBroad` — the early option-validity loop failed; the Go code
  returns `fmt.Errorf("too broad option %v: %w", ..., unix.EINVAL)`,
  an invalid-argument policy error, before any kernel call.
* `missingKernelSupport` — `!c.compatibleWithABI(abi)`; the Go code
  returns the "missing kernel Landlock support" error.
* `successNoRestrict` — the final handled set is empty; the Go code
  returns `nil` (success) without creating a ruleset, adding a rule,
  or restricting anything.
* `enforce c opts` — the call proceeds to `LandlockCreateRuleset`
  with `c.handledAccessFS` and would add each of `opts`. -/
inductive RestrictResult where
  | tooBroad
  | missingKernelSupport
  | successNoRestrict
  | enforce (c : Config) (opts : List PathOpt)
deriving DecidableEq, Repr

/-- The config/options pair that survives the best-effort downgrade
step of `restrictPaths` (the bindings `c, opts` after the
`if c.bestEffort` statement). -/
def finalPolicy (c : Config) (opts : List PathOpt) (abi : abiInfo) : Config × List PathOpt :=
  if c.bestEffort then downgrade c opts abi else (c, opts)

/-- The pure prefix of `restrictPaths` from landlock/restrict.go,
with the probed ABI as an input: the early compatibility loop, the
best-effort downgrade, the ABI check and the empty-handled-set early
return, in source order. -/
def restrictPathsResult (c : Config) (opts : List PathOpt) (abi : abiInfo) : RestrictResult :=
  if opts.all (fun o => o.compatibleWithConfig c) then
    let p := finalPolicy c opts abi
    if p.1.compatibleWithABI abi then
      if isEmpty p.1.handledAccessFS then .successNoRestrict
      else .enforce p.1 p.2
    else .missingKernelSupport
  else .tooBroad

-- ### Config construction (landlock/config.go)

/-- One `interface{}` argument of `NewConfig`: either an
`AccessFSSet` value or a value of any other type (which `NewConfig`
rejects uniformly). -/
inductive ConfigArg where
  | afs (a : AccessFSSet)
  | other
deriving DecidableEq, Repr

/-- The argument loop of `NewConfig` from landlock/config.go, with
the running config as accumulator.  Error strings are the messages of
the source. -/
def newConfigLoop (c : Config) : List ConfigArg → Except String Config
  | [] => .ok c
  | .afs a :: rest =>
    if !(isEmpty c.handledAccessFS) then .error "only one AccessFSSet may be provided"
    else if !(valid a) then .error "unsupported AccessFSSet value; upgrade go-landlock?"
    else newConfigLoop { c with handledAccessFS := a } rest
  | .other :: _ => .error "unknown argument; only AccessFSSet-type argument is supported"

/-- `NewConfig` from landlock/config.go: starts from the zero
`Config` and folds the arguments. -/
def NewConfig (args : List ConfigArg) : Except String Config :=
  newConfigLoop ⟨0, false⟩ args

-- ### Config.String version selection (landlock/config.go)

/-- The ABI-selection loop of `Config.String` in landlock/config.go:
`abi` starts as the invalid sentinel (version `-1`) and the loop runs
`for i := len(abiInfos)-1; i >= 0; i--`, overwriting `abi` with every
entry whose supported set contains the handled set; iterating the
reversed registry with `foldl` performs the same descending sweep. -/
def stringAbi (c : Config) : abiInfo :=
  abiInfos.reverse.foldl
    (fun acc a => if isSubset c.handledAccessFS a.supportedAccessFS then a else acc)
    ⟨-1, 0⟩

/-- The version token of `Config.String` in landlock/config.go:
`"V???"` for the invalid sentinel, otherwise `fmt.Sprintf("V%v", version)`. -/
def stringVersionToken (c : Config) : String :=
  if (stringAbi c).version < 0 then "V???" else "V" ++ toString (stringAbi c).version

-- ### AccessFSSet rendering (the accessfs.go snapshot the claims cite)

/-- The canonical bit names of `AccessFSSet.String`, in bit order. -/
def accessFSNames : List String :=
  ["Execute", "WriteFile", "ReadFile", "ReadDir", "RemoveDir", "RemoveFile",
   "MakeChar", "MakeDir", "MakeReg", "MakeSock", "MakeFifo", "MakeBlock", "MakeSym"]

/-- The name loop of `AccessFSSet.String`: `b` is the
`strings.Builder` contents so far (`"\x7b"` on entry), `i` the bit
index of the current name; a comma is written first whenever
`b.Len() > 1` (something follows the opening brace already). -/
def accessFSStringLoop (a : AccessFSSet) (b : String) (i : Nat) : List String → String
  | [] => b
  | n :: rest =>
    if a &&& (1 <<< i) == 0 then accessFSStringLoop a b (i + 1) rest
    else
      let b2 := if b.length > 1 then b ++ "," else b
      accessFSStringLoop a (b2 ++ n) (i + 1) rest

/-- `AccessFSSet.String` from the cited accessfs.go snapshot: `"∅"`
for the empty set, otherwise the named bits between braces.  (Named
`accessFSString` here because `AccessFSSet` is an abbreviation of
`Nat`.) -/
def accessFSString (a : AccessFSSet) : String :=
  if isEmpty a then "∅"
  else accessFSStringLoop a "\x7b" 0 accessFSNames ++ "\x7d"

/-- Comma-prefixed concatenation of the elements after the first. -/
def joinTail : List String → String
  | [] => ""
  | s :: rest => "," ++ s ++ joinTail rest

/-- Comma-separated concatenation. -/
def renderNames : List String → String
  | [] => ""
  | n :: rest => n ++ joinTail rest

/-- The rendering the spec describes for `format(a)` ("∅ for the
empty set or {name1,name2,...} listing set bits in ascending bit
order using each bit's canonical name"), restricted to the thirteen
bits this snapshot names.  Stated independently of the builder loop,
to be compared with `accessFSString`. -/
def accessFSStringSpec (a : AccessFSSet) : String :=
  if a == 0 then "∅"
  else
    "\x7b" ++
      renderNames (((List.range 13).filter (fun i => a &&& (1 <<< i) != 0)).map
        (fun i => accessFSNames.getD i "")) ++
    "\x7d"

-- ## Bit-algebra helper lemmas

theorem land_land_self (a b : Nat) : a &&& b &&& b = a &&& b := by
  apply Nat.eq_of_testBit_eq
  intro i
  simp [Nat.testBit_land, Bool.and_assoc]

theorem isSubset_intersect_self (a b : AccessFSSet) : isSubset (intersect a b) b = true := by
  simp [isSubset, intersect, land_land_self]

theorem zero_isSubset (b : AccessFSSet) : isSubset 0 b = true := by
  simp [isSubset, Nat.zero_and]

theorem hasRefer_testBit (a : AccessFSSet) : hasRefer a = a.testBit 13 := by
  have e : AccessFSRefer = 2 ^ 13 := by decide
  rw [hasRefer, e, Nat.and_two_pow]
  cases hb : a.testBit 13 <;> simp [hb]

theorem hasRefer_intersect (a b : AccessFSSet) :
    hasRefer (intersect a b) = (hasRefer a && hasRefer b) := by
  simp [hasRefer_testBit, intersect, Nat.testBit_land]

theorem isSubset_refer_part (a h : AccessFSSet) :
    isSubset (intersect a AccessFSRefer) h = (!hasRefer a || hasRefer h) := by
  have e : AccessFSRefer = 2 ^ 13 := by decide
  rw [isSubset, intersect, e, Nat.and_two_pow]
  cases ha : a.testBit 13
  · simp [hasRefer_testBit, ha, Nat.zero_and]
  · simp only [Bool.toNat_true, one_mul]
    rw [Nat.land_comm, Nat.and_two_pow]
    cases hh : h.testBit 13 <;> simp [hasRefer_testBit, ha, hh]

theorem restrictTo_restrictTo (c : Config) (abi : abiInfo) :
    (c.restrictTo abi).restrictTo abi = c.restrictTo abi := by
  simp [Config.restrictTo, intersect, land_land_self]

theorem v0_restrictTo (abi : abiInfo) : v0.restrictTo abi = v0 := by
  simp [Config.restrictTo, v0, intersect, Nat.zero_and]

-- ## Downgrade lemmas

theorem PathOpt.downgrade_some {p p2 : PathOpt} {c : Config}
    (h : p.downgrade c = some p2) :
    p2 = p.intersectRights c.handledAccessFS := by
  unfold PathOpt.downgrade at h
  by_cases hc : (hasRefer p.accessFS && !hasRefer c.handledAccessFS) = true
  · simp [hc] at h
  · simp only [Bool.not_eq_true] at hc
    simp [hc] at h
    exact h.symm

theorem downgradeOpts_refer_none (c : Config) (opts : List PathOpt)
    (hx : ∃ o ∈ opts, hasRefer o.accessFS = true)
    (hc : hasRefer c.handledAccessFS = false) :
    downgradeOpts c opts = none := by
  induction opts with
  | nil => simp at hx
  | cons o rest ih =>
    rcases hx with ⟨p, hp, hpr⟩
    rcases List.mem_cons.mp hp with h | h
    · subst h
      simp [downgradeOpts, PathOpt.downgrade, hpr, hc]
    · cases hor : hasRefer o.accessFS
      · have hrest : downgradeOpts c rest = none := ih ⟨p, h, hpr⟩
        simp [downgradeOpts, PathOpt.downgrade, hor, hc, hrest]
      · simp [downgradeOpts, PathOpt.downgrade, hor, hc]

theorem downgradeOpts_subset (c : Config) :
    ∀ opts l : List PathOpt, downgradeOpts c opts = some l →
      ∀ o ∈ l, isSubset o.accessFS c.handledAccessFS = true := by
  intro opts
  induction opts with
  | nil =>
    intro l h o ho
    simp [downgradeOpts] at h
    subst h
    simp at ho
  | cons p rest ih =>
    intro l h o ho
    rw [downgradeOpts] at h
    cases hd : p.downgrade c with
    | none => rw [hd] at h; simp at h
    | some p2 =>
      rw [hd] at h
      cases hr : downgradeOpts c rest with
      | none => rw [hr] at h; simp at h
      | some l2 =>
        rw [hr] at h
        simp at h
        subst h
        rcases List.mem_cons.mp ho with h2 | h2
        · subst h2
          rw [PathOpt.downgrade_some hd]
          simp [PathOpt.intersectRights, isSubset_intersect_self]
        · exact ih l2 hr o h2

theorem downgradeOpts_idem (c : Config) :
    ∀ opts l : List PathOpt, downgradeOpts c opts = some l →
      downgradeOpts c l = some l := by
  intro opts
  induction opts with
  | nil =>
    intro l h
    simp [downgradeOpts] at h
    subst h
    simp [downgradeOpts]
  | cons p rest ih =>
    intro l h
    rw [downgradeOpts] at h
    cases hd : p.downgrade c with
    | none => rw [hd] at h; simp at h
    | some p2 =>
      rw [hd] at h
      cases hr : downgradeOpts c rest with
      | none => rw [hr] at h; simp at h
      | some l2 =>
        rw [hr] at h
        simp at h
        subst h
        have hp2 : p2 = p.intersectRights c.handledAccessFS := PathOpt.downgrade_some hd
        have hl2 : downgradeOpts c l2 = some l2 := ih l2 hr
        have hcond : (hasRefer p2.accessFS && !hasRefer c.handledAccessFS) = false := by
          cases hh : hasRefer c.handledAccessFS
          · have hp2r : hasRefer p2.accessFS = false := by
              rw [hp2]
              simp [PathOpt.intersectRights, hasRefer_intersect, hh]
            simp [hp2r]
          · simp [hh]
        have hdp2 : p2.downgrade c = some p2 := by
          unfold PathOpt.downgrade
          rw [hcond]
          simp only [Bool.false_eq_true, if_false]
          rw [hp2]
          simp [PathOpt.intersectRights, intersect, land_land_self]
        simp [downgradeOpts, hdp2, hl2]

-- ## C1, C3, C4

/-- C1: in a best-effort enforcement call, if any rule requests the
"refer" right and the config narrowed to the kernel's supported set
no longer contains it, `downgrade` returns the fallback `(v0, nil)` —
the version-0 config with an empty rule list — and never a rule with
just the refer bit clipped out. -/
theorem downgrade_refer_fallback (c : Config) (opts : List PathOpt) (abi : abiInfo)
    (hreq : ∃ o ∈ opts, hasRefer o.accessFS = true)
    (hlost : hasRefer (c.restrictTo abi).handledAccessFS = false) :
    downgrade c opts abi = (v0, []) := by
  rw [downgrade, downgradeOpts_refer_none (c.restrictTo abi) opts hreq hlost]

theorem downgrade_refer_fallback_witness :
    downgrade ⟨8196, true⟩ [⟨8196, true, ["foo"]⟩] ⟨1, 8191⟩ = (v0, []) :=
  downgrade_refer_fallback ⟨8196, true⟩ [⟨8196, true, ["foo"]⟩] ⟨1, 8191⟩
    ⟨⟨8196, true, ["foo"]⟩, by decide, by decide⟩ (by decide)

/-- C3: when no rule triggers the refer discontinuity, the result of
`downgrade` satisfies: every rule's effective right set is a subset of
the downgraded config's handled set, and the downgraded config's
handled set is a subset of the ABI's supported set. -/
theorem downgrade_subset_invariant (c : Config) (opts : List PathOpt) (abi : abiInfo)
    (c2 : Config) (opts2 : List PathOpt)
    (_hnd : ∀ o ∈ opts, hasRefer o.accessFS = true →
      hasRefer (intersect c.handledAccessFS abi.supportedAccessFS) = true)
    (hdg : downgrade c opts abi = (c2, opts2)) :
    (∀ o ∈ opts2, isSubset o.accessFS c2.handledAccessFS = true) ∧
      isSubset c2.handledAccessFS abi.supportedAccessFS = true := by
  rw [downgrade] at hdg
  cases hdo : downgradeOpts (c.restrictTo abi) opts with
  | none =>
    rw [hdo] at hdg
    simp at hdg
    obtain ⟨h1, h2⟩ := hdg
    subst h1
    subst h2
    refine ⟨by simp, zero_isSubset _⟩
  | some l =>
    rw [hdo] at hdg
    simp at hdg
    obtain ⟨h1, h2⟩ := hdg
    subst h1
    subst h2
    refine ⟨downgradeOpts_subset _ opts l hdo, ?_⟩
    simp [Config.restrictTo, isSubset_intersect_self]

theorem downgrade_subset_invariant_witness :
    (∀ o ∈ [PathOpt.mk 1 true []], isSubset o.accessFS (Config.mk 3 true).handledAccessFS = true) ∧
      isSubset (Config.mk 3 true).handledAccessFS (8191 : AccessFSSet) = true :=
  downgrade_subset_invariant ⟨3, true⟩ [⟨1, true, []⟩] ⟨1, 8191⟩ ⟨3, true⟩ [⟨1, true, []⟩]
    (by decide) (by decide)

/-- C4: `downgrade` is idempotent — applying it to its own output
with the same ABI info yields that output again, including when the
first application fell back to `(v0, nil)`. -/
theorem downgrade_idempotent (c : Config) (opts : List PathOpt) (abi : abiInfo) :
    downgrade (downgrade c opts abi).1 (downgrade c opts abi).2 abi = downgrade c opts abi := by
  cases hdo : downgradeOpts (c.restrictTo abi) opts with
  | none =>
    simp [downgrade, hdo, v0_restrictTo, downgradeOpts]
  | some l =>
    have hidem : downgradeOpts (c.restrictTo abi) l = some l :=
      downgradeOpts_idem _ opts l hdo
    simp [downgrade, hdo, hidem, restrictTo_restrictTo]

-- ## C2: compatibility check and the "too broad" policy error

/-- C2: the compatibility check of a path rule succeeds, for
`enforceSubset = true`, iff the rule's `accessFS` is a subset of the
config's handled set; for canned rules (`enforceSubset = false`) only
the "refer" bit is checked (a canned rule is compatible iff
requesting refer implies the config handles refer; all other bits are
exempt); and whenever some rule fails the check, `restrictPaths`
returns the invalid-argument "too broad" policy error (`tooBroad`,
the `unix.EINVAL`-wrapped error of the source) for any best-effort
flag and any probed ABI, before any kernel ruleset is created. -/
theorem compatibility_check_policy (p : PathOpt) (c : Config) (opts : List PathOpt)
    (abi : abiInfo) :
    (p.enforceSubset = true →
      (p.compatibleWithConfig c = true ↔ isSubset p.accessFS c.handledAccessFS = true))
    ∧ (p.enforceSubset = false →
      (p.compatibleWithConfig c = true ↔
        (hasRefer p.accessFS = true → hasRefer c.handledAccessFS = true)))
    ∧ ((∃ o ∈ opts, o.compatibleWithConfig c = false) →
      restrictPathsResult c opts abi = .tooBroad) := by
  refine ⟨?_, ?_, ?_⟩
  · intro he
    simp [PathOpt.compatibleWithConfig, he]
  · intro he
    rw [PathOpt.compatibleWithConfig, he]
    simp only [Bool.not_false, if_true, isSubset_refer_part]
    cases ha : hasRefer p.accessFS <;> cases hc : hasRefer c.handledAccessFS <;> simp
  · rintro ⟨o, ho, hf⟩
    have hall : opts.all (fun o => o.compatibleWithConfig c) = false := by
      cases hx : opts.all (fun o => o.compatibleWithConfig c)
      · rfl
      · have := List.all_eq_true.mp hx o ho
        rw [hf] at this
        exact absurd this (by simp)
    simp [restrictPathsResult, hall]

theorem compatibility_check_policy_witness :
    ((PathOpt.mk 3 true []).compatibleWithConfig ⟨1, false⟩ = true ↔
      isSubset 3 (Config.mk 1 false).handledAccessFS = true)
    ∧ ((PathOpt.mk 8193 false []).compatibleWithConfig ⟨0, true⟩ = true ↔
      (hasRefer (8193 : AccessFSSet) = true → hasRefer (Config.mk 0 true).handledAccessFS = true))
    ∧ restrictPathsResult ⟨1, false⟩ [⟨2, true, ["p"]⟩] ⟨1, 8191⟩ = .tooBroad :=
  ⟨(compatibility_check_policy ⟨3, true, []⟩ ⟨1, false⟩ [] ⟨1, 8191⟩).1 rfl,
   (compatibility_check_policy ⟨8193, false, []⟩ ⟨0, true⟩ [] ⟨1, 8191⟩).2.1 rfl,
   (compatibility_check_policy ⟨2, true, ["p"]⟩ ⟨1, false⟩ [⟨2, true, ["p"]⟩] ⟨1, 8191⟩).2.2
     ⟨⟨2, true, ["p"]⟩, by decide, by decide⟩⟩

-- ## C8: empty handled set short-circuits enforcement

theorem restrictPaths_empty_handled_counterexample :
    (Config.mk 0 false).bestEffort = false
    ∧ isEmpty (finalPolicy ⟨0, false⟩ [⟨1, true, ["p"]⟩] ⟨1, 8191⟩).1.handledAccessFS = true
    ∧ restrictPathsResult ⟨0, false⟩ [⟨1, true, ["p"]⟩] ⟨1, 8191⟩ = .tooBroad := by
  decide

/-- C8 (amended): for every enforcement call that passes the early
rule-compatibility check, if the final (possibly downgraded) handled
access set is empty, `restrictPaths` returns success immediately
(`successNoRestrict`), without creating a kernel ruleset, adding any
rule, or applying any restriction. -/
theorem restrictPaths_empty_handled_success (c : Config) (opts : List PathOpt) (abi : abiInfo)
    (hok : ∀ o ∈ opts, o.compatibleWithConfig c = true)
    (hemp : isEmpty (finalPolicy c opts abi).1.handledAccessFS = true) :
    restrictPathsResult c opts abi = .successNoRestrict := by
  have hall : opts.all (fun o => o.compatibleWithConfig c) = true :=
    List.all_eq_true.mpr hok
  have hzero : (finalPolicy c opts abi).1.handledAccessFS = 0 := by
    simpa [isEmpty] using hemp
  have habi : (finalPolicy c opts abi).1.compatibleWithABI abi = true := by
    rw [Config.compatibleWithABI, hzero]
    exact zero_isSubset _
  simp [restrictPathsResult, hall, habi, hemp]

theorem restrictPaths_empty_handled_success_witness :
    restrictPathsResult ⟨8192, true⟩ [⟨8192, false, ["p"]⟩] ⟨1, 8191⟩ = .successNoRestrict :=
  restrictPaths_empty_handled_success ⟨8192, true⟩ [⟨8192, false, ["p"]⟩] ⟨1, 8191⟩
    (by decide) (by decide)

-- ## C7, C10: the old golandlock ABI probe

/-- C7: the probe returns the registry entry for version 0 ("no
support") whenever the kernel version query fails, instead of
propagating the error; on a successful query that is within the
registry, it returns the entry whose version equals the kernel's
reply. -/
theorem probe_error_falls_back_v0 :
    (∀ e : Unit, getSupportedABIVersion (.error e) = some ⟨0, 0⟩)
    ∧ (∀ v : Nat, v < glAbiInfos.length →
      ∃ a : abiInfo, getSupportedABIVersion (.ok v) = some a ∧ a.version = v) := by
  refine ⟨fun e => rfl, ?_⟩
  intro v hv
  have hv2 : v < 2 := by simpa [glAbiInfos] using hv
  interval_cases v
  · exact ⟨⟨0, 0⟩, rfl, rfl⟩
  · exact ⟨⟨1, 8191⟩, rfl, rfl⟩

theorem probe_error_falls_back_v0_witness :
    getSupportedABIVersion (.error ()) = some ⟨0, 0⟩
    ∧ ∃ a : abiInfo, getSupportedABIVersion (.ok 1) = some a ∧ a.version = 1 :=
  ⟨probe_error_falls_back_v0.1 (), probe_error_falls_back_v0.2 1 (by decide)⟩

/-- C10: the probe indexes the registry directly with the
kernel-reported version, so the lookup is in bounds exactly for
replies below the registry length; the successful reply `2` — one
more than the highest known version — is out of range (`none` here, a
slice-bounds panic in Go). -/
theorem probe_index_bounds :
    getSupportedABIVersion (.ok 2) = none
    ∧ (∀ v : Nat, v < glAbiInfos.length → (getSupportedABIVersion (.ok v)).isSome = true)
    ∧ (∀ v : Nat, glAbiInfos.length ≤ v → getSupportedABIVersion (.ok v) = none) := by
  refine ⟨rfl, ?_, ?_⟩
  · intro v hv
    have hv2 : v < 2 := by simpa [glAbiInfos] using hv
    interval_cases v <;> rfl
  · intro v hv
    rw [getSupportedABIVersion]
    exact List.get?_eq_none.mpr hv

theorem probe_index_bounds_witness :
    (getSupportedABIVersion (.ok 0)).isSome = true
    ∧ getSupportedABIVersion (.ok 5) = none :=
  ⟨probe_index_bounds.2.1 0 (by decide), probe_index_bounds.2.2 5 (by decide)⟩

-- ## C5: NewConfig argument validation

theorem newConfigLoop_other_error (args : List ConfigArg) :
    ∀ c : Config, ConfigArg.other ∈ args →
      ∃ e, newConfigLoop c args = .error e := by
  induction args with
  | nil => intro c h; simp at h
  | cons arg rest ih =>
    intro c h
    cases arg with
    | other => exact ⟨_, rfl⟩
    | afs a =>
      rcases List.mem_cons.mp h with h2 | h2
      · exact absurd h2 (by simp)
      · rw [newConfigLoop]
        by_cases h3 : (!isEmpty c.handledAccessFS) = true
        · rw [h3]; exact ⟨_, rfl⟩
        · simp only [Bool.not_eq_true] at h3
          rw [h3]
          by_cases h4 : (!valid a) = true
          · rw [h4]; exact ⟨_, rfl⟩
          · simp only [Bool.not_eq_true] at h4
            rw [h4]
            simpa using ih _ h2

theorem newConfigLoop_invalid_error (args : List ConfigArg) :
    ∀ (c : Config) (a : AccessFSSet), ConfigArg.afs a ∈ args → valid a = false →
      ∃ e, newConfigLoop c args = .error e := by
  induction args with
  | nil => intro c a h _; simp at h
  | cons arg rest ih =>
    intro c a h hinv
    cases arg with
    | other => exact ⟨_, rfl⟩
    | afs b =>
      rw [newConfigLoop]
      by_cases h3 : (!isEmpty c.handledAccessFS) = true
      · rw [h3]; exact ⟨_, rfl⟩
      · simp only [Bool.not_eq_true] at h3
        rw [h3]
        by_cases h4 : (!valid b) = true
        · rw [h4]; exact ⟨_, rfl⟩
        · simp only [Bool.not_eq_true] at h4
          rw [h4]
          rcases List.mem_cons.mp h with h2 | h2
          · injection h2 with hab
            subst hab
            rw [hinv] at h4
            simp at h4
          · simpa using ih _ a h2 hinv

theorem newConfigLoop_nonzero_error (args : List ConfigArg) :
    ∀ (c : Config) (b : AccessFSSet), c.handledAccessFS ≠ 0 → ConfigArg.afs b ∈ args →
      ∃ e, newConfigLoop c args = .error e := by
  induction args with
  | nil => intro c b _ h; simp at h
  | cons arg rest ih =>
    intro c b hnz h
    cases arg with
    | other => exact ⟨_, rfl⟩
    | afs x =>
      have hne : (!isEmpty c.handledAccessFS) = true := by
        simp [isEmpty, hnz]
      rw [newConfigLoop, hne]
      exact ⟨_, rfl⟩

theorem newConfigLoop_dup_error (l1 : List ConfigArg) :
    ∀ (c : Config) (a b : AccessFSSet) (l2 l3 : List ConfigArg), a ≠ 0 →
      ∃ e, newConfigLoop c (l1 ++ ConfigArg.afs a :: l2 ++ ConfigArg.afs b :: l3) = .error e := by
  induction l1 with
  | nil =>
    intro c a b l2 l3 hnz
    simp only [List.nil_append, newConfigLoop]
    by_cases h3 : (!isEmpty c.handledAccessFS) = true
    · rw [h3]; exact ⟨_, rfl⟩
    · simp only [Bool.not_eq_true] at h3
      rw [h3]
      by_cases h4 : (!valid a) = true
      · rw [h4]; exact ⟨_, rfl⟩
      · simp only [Bool.not_eq_true] at h4
        rw [h4]
        exact newConfigLoop_nonzero_error _ _ b hnz
          (by simp)
  | cons arg rest ih =>
    intro c a b l2 l3 hnz
    cases arg with
    | other => exact ⟨_, rfl⟩
    | afs x =>
      simp only [List.cons_append, newConfigLoop]
      by_cases h3 : (!isEmpty c.handledAccessFS) = true
      · rw [h3]; exact ⟨_, rfl⟩
      · simp only [Bool.not_eq_true] at h3
        rw [h3]
        by_cases h4 : (!valid x) = true
        · rw [h4]; exact ⟨_, rfl⟩
        · simp only [Bool.not_eq_true] at h4
          rw [h4]
          exact ih _ a b l2 l3 hnz

theorem newConfig_duplicate_empty_slips :
    NewConfig [ConfigArg.afs 0, ConfigArg.afs 1] = .ok ⟨1, false⟩ := rfl

/-- C5 (amended): every `NewConfig` argument that is not a
capability-set value causes an error; a second capability-set
argument causes an error whenever an earlier capability-set argument
provided a non-empty set (the duplicate check tests whether the
handled set accumulated so far is non-empty, so a duplicate after an
empty first set is accepted); a capability-set argument with a bit
outside the highest known ABI version's supported bits causes an
error; and the empty argument list succeeds with an all-empty
`Config`. -/
theorem newConfig_argument_checks :
    (∀ args : List ConfigArg,
      (ConfigArg.other ∈ args → ∃ e, NewConfig args = .error e)
      ∧ (∀ (l1 l2 l3 : List ConfigArg) (a b : AccessFSSet),
          args = l1 ++ ConfigArg.afs a :: l2 ++ ConfigArg.afs b :: l3 → a ≠ 0 →
          ∃ e, NewConfig args = .error e)
      ∧ (∀ a : AccessFSSet, ConfigArg.afs a ∈ args → valid a = false →
          ∃ e, NewConfig args = .error e))
    ∧ NewConfig [] = .ok ⟨0, false⟩ := by
  refine ⟨fun args => ⟨?_, ?_, ?_⟩, rfl⟩
  · exact fun h => newConfigLoop_other_error args _ h
  · intro l1 l2 l3 a b heq hnz
    rw [NewConfig, heq]
    exact newConfigLoop_dup_error l1 _ a b l2 l3 hnz
  · exact fun a h hinv => newConfigLoop_invalid_error args _ a h hinv

theorem newConfig_argument_checks_witness :
    (∃ e, NewConfig [ConfigArg.other] = .error e)
    ∧ (∃ e, NewConfig [ConfigArg.afs 1, ConfigArg.afs 2] = .error e)
    ∧ (∃ e, NewConfig [ConfigArg.afs (1 <<< 16)] = .error e)
    ∧ NewConfig [] = .ok ⟨0, false⟩ :=
  ⟨(newConfig_argument_checks.1 [ConfigArg.other]).1 (by decide),
   (newConfig_argument_checks.1 [ConfigArg.afs 1, ConfigArg.afs 2]).2.1
     [] [] [] 1 2 rfl (by decide),
   (newConfig_argument_checks.1 [ConfigArg.afs (1 <<< 16)]).2.2 (1 <<< 16)
     (by decide) (by decide),
   newConfig_argument_checks.2⟩

-- ## C6: Config.String version selection

theorem configString_not_highest_counterexample :
    (⟨3, (1 <<< 15) - 1⟩ : abiInfo) ∈ abiInfos
    ∧ isSubset (Config.mk 2 false).handledAccessFS ((1 <<< 15) - 1) = true
    ∧ (∀ a ∈ abiInfos, a.version ≤ 3)
    ∧ stringVersionToken ⟨2, false⟩ = "V1" := by decide

/-- C6 (amended): the version reported by `Config.String` is the
LOWEST known ABI version whose supported access set is a superset of
the config's handled set (the minimal version sufficient for the
config) — not the highest — and the "V???" marker is reported
exactly when no known ABI version's supported set is a superset of
the handled set. -/
theorem configString_lowest_version (c : Config) :
    ((∃ a ∈ abiInfos, isSubset c.handledAccessFS a.supportedAccessFS = true) →
      stringAbi c ∈ abiInfos
      ∧ isSubset c.handledAccessFS (stringAbi c).supportedAccessFS = true
      ∧ (∀ a ∈ abiInfos, isSubset c.handledAccessFS a.supportedAccessFS = true →
          (stringAbi c).version ≤ a.version))
    ∧ (stringVersionToken c = "V???" ↔
        ∀ a ∈ abiInfos, isSubset c.handledAccessFS a.supportedAccessFS = false) := by
  have hrev : abiInfos.reverse =
      [⟨3, 32767⟩, ⟨2, 16383⟩, ⟨1, 8191⟩, ⟨0, 0⟩] := by decide
  have hu : stringAbi c =
      (if isSubset c.handledAccessFS 0 = true then (⟨0, 0⟩ : abiInfo)
       else if isSubset c.handledAccessFS 8191 = true then ⟨1, 8191⟩
       else if isSubset c.handledAccessFS 16383 = true then ⟨2, 16383⟩
       else if isSubset c.handledAccessFS 32767 = true then ⟨3, 32767⟩
       else ⟨-1, 0⟩) := by
    unfold stringAbi
    rw [hrev]
    rfl
  cases h0 : isSubset c.handledAccessFS 0 <;>
    cases h1 : isSubset c.handledAccessFS 8191 <;>
      cases h2 : isSubset c.handledAccessFS 16383 <;>
        cases h3 : isSubset c.handledAccessFS 32767 <;>
          simp [hu, h0, h1, h2, h3, stringVersionToken, abiInfos] <;>
            decide

theorem configString_lowest_version_witness :
    (Config.mk 2 false |> stringAbi) ∈ abiInfos
    ∧ isSubset (Config.mk 2 false).handledAccessFS (stringAbi ⟨2, false⟩).supportedAccessFS = true
    ∧ (∀ a ∈ abiInfos,
        isSubset (Config.mk 2 false).handledAccessFS a.supportedAccessFS = true →
        (stringAbi ⟨2, false⟩).version ≤ a.version) :=
  (configString_lowest_version ⟨2, false⟩).1
    ⟨⟨1, (1 <<< 13) - 1⟩, by decide, by decide⟩

-- ## C9: AccessFSSet rendering

/-- The names the builder loop emits: the name of every set bit among
the given names, scanning from bit index `i`, in ascending order. -/
def selectedNames (a : AccessFSSet) : Nat → List String → List String
  | _, [] => []
  | i, n :: rest =>
    if a &&& (1 <<< i) == 0 then selectedNames a (i + 1) rest
    else n :: selectedNames a (i + 1) rest

theorem accessFSStringLoop_eq (a : AccessFSSet) :
    ∀ (names : List String) (i : Nat) (b : String),
      0 < b.length → (∀ n ∈ names, 0 < n.length) →
      accessFSStringLoop a b i names =
        if 1 < b.length then b ++ joinTail (selectedNames a i names)
        else b ++ renderNames (selectedNames a i names) := by
  intro names
  induction names with
  | nil =>
    intro i b _ _
    simp [accessFSStringLoop, selectedNames, joinTail, renderNames, String.append_empty]
  | cons n rest ih =>
    intro i b hb hne
    have hn : 0 < n.length := hne n (List.mem_cons_self n rest)
    have hrest : ∀ m ∈ rest, 0 < m.length := fun m hm => hne m (List.mem_cons_of_mem n hm)
    by_cases hbit : (a &&& (1 <<< i) == 0) = true
    · rw [accessFSStringLoop, if_pos hbit, ih i.succ b hb hrest]
      rw [selectedNames, if_pos hbit]
    · rw [accessFSStringLoop, if_neg hbit]
      rw [selectedNames, if_neg hbit]
      by_cases hlen : 1 < b.length
      · rw [if_pos hlen, if_pos hlen]
        have hlen2 : 0 < (b ++ "," ++ n).length := by
          rw [String.length_append, String.length_append]
          omega
        rw [ih i.succ (b ++ "," ++ n) hlen2 hrest]
        have hlen3 : 1 < (b ++ "," ++ n).length := by
          rw [String.length_append, String.length_append]
          omega
        rw [if_pos hlen3, joinTail]
        simp [String.append_assoc]
      · rw [if_neg hlen, if_neg hlen]
        have hlen2 : 0 < (b ++ n).length := by
          rw [String.length_append]
          omega
        rw [ih i.succ (b ++ n) hlen2 hrest]
        have hlen3 : 1 < (b ++ n).length := by
          rw [String.length_append]
          omega
        rw [if_pos hlen3, renderNames]
        simp [String.append_assoc]

theorem selectedNames_eq (a : AccessFSSet) :
    ∀ (names : List String) (i : Nat),
      selectedNames a i names =
        ((List.range names.length).filter (fun j => a &&& (1 <<< (i + j)) != 0)).map
          (fun j => names.getD j "") := by
  intro names
  induction names with
  | nil => intro i; simp [selectedNames]
  | cons n rest ih =>
    intro i
    have hfn : ((fun j => (n :: rest).getD j "") ∘ Nat.succ) = (fun j => rest.getD j "") := by
      funext j
      simp
    have hff : ((fun j => a &&& (1 <<< (i + j)) != 0) ∘ Nat.succ)
        = (fun j => a &&& (1 <<< (i + 1 + j)) != 0) := by
      funext j
      have h : i + Nat.succ j = i + 1 + j := by omega
      simp only [Function.comp_apply]
      rw [h]
    rw [List.length_cons, List.range_succ_eq_map, List.filter_cons, List.filter_map, hff]
    by_cases hbit : (a &&& (1 <<< i) == 0) = true
    · have hc : (a &&& (1 <<< (i + 0)) != 0) = false := by simpa using hbit
      rw [hc]
      simp only [Bool.false_eq_true, if_false]
      rw [selectedNames, if_pos hbit, ih (i + 1), List.map_map, hfn]
    · have hc : (a &&& (1 <<< (i + 0)) != 0) = true := by simpa using hbit
      rw [hc]
      simp only [if_true]
      rw [selectedNames, if_neg hbit, ih (i + 1), List.map_cons, List.map_map, hfn]
      simp

theorem accessFSString_unknown_bit_counterexample :
    accessFSString (1 <<< 13) = "\x7b\x7d" := by decide

/-- C9 (amended): the rendering of an access set is "∅" exactly when
the set is empty; otherwise it is a braced list of the canonical
names of the set bits among the thirteen named bits, in ascending bit
order — and any set bit beyond the highest known named bit is simply
omitted from the rendering (it is not rendered as a "1<<N" token). -/
theorem accessFSString_renders_named_bits (a : AccessFSSet) :
    accessFSString a = accessFSStringSpec a := by
  by_cases hz : (a == 0) = true
  · have : isEmpty a = true := hz
    rw [accessFSString, if_pos this, accessFSStringSpec, if_pos hz]
  · have hne : isEmpty a = false := by simpa [isEmpty] using hz
    rw [accessFSString, accessFSStringSpec]
    simp only [hne, Bool.false_eq_true, if_false, hz]
    have hb : (0 : Nat) < ("\x7b" : String).length := by decide
    have hn : ∀ n ∈ accessFSNames, 0 < n.length := by decide
    rw [accessFSStringLoop_eq a accessFSNames 0 "\x7b" hb hn]
    have hlen : ¬(1 < ("\x7b" : String).length) := by decide
    rw [if_neg hlen]
    have h13 : accessFSNames.length = 13 := by decide
    rw [selectedNames_eq a accessFSNames 0]
    simp only [h13, Nat.zero_add]

end Landlock
